import Mathlib

/-!
Verification development for `oms-core/scripts/readyset-timeseries.py`.

The script collects metrics snapshots from a ReadySet proxy: `parse_metrics`
turns Prometheus-style exposition text into a `MetricsSnapshot`, the collector
appends snapshots to an in-memory list, and `save`/`load` persist the list as
JSON.  We embed the metric-extraction core, the JSON (de)serialisation layer
and the summary statistics as executable Lean functions over `List Char`
(Python `str`), `Int` (Python `int`) and `ℚ` (exact stand-in for Python
`float`; all arithmetic the script performs on these values is exact for the
magnitudes involved, and `repr`-based JSON float serialisation round-trips).
-/

namespace ReadySetTS

/-! ### Character classes (Python `\s` and `\d` over the ASCII range used here) -/

def isSpaceC (c : Char) : Bool :=
  c.toNat = 32 || c.toNat = 9 || c.toNat = 10 || c.toNat = 11 || c.toNat = 12 || c.toNat = 13

def isDigitC (c : Char) : Bool :=
  48 ≤ c.toNat && c.toNat ≤ 57

def digitVal (c : Char) : Nat := c.toNat - 48

/-- Value of a digit list given least-significant digit first. -/
def natOfRevDigits : List Char → Nat
  | [] => 0
  | c :: r => digitVal c + 10 * natOfRevDigits r

/-! ### Substring containment (Python `pat in line`) -/

def containsSub (pat : List Char) : List Char → Bool
  | [] => pat.isPrefixOf ([] : List Char)
  | c :: r => pat.isPrefixOf (c :: r) || containsSub pat r

/-! ### Trailing-number extraction

`re.search(r'\s(\d+)\s*$', line)` matches exactly when, after stripping
trailing whitespace, the line ends in a nonempty run of digits immediately
preceded by a whitespace character; the captured group is that maximal digit
run.  `re.search(r'\s(\d+\.?\d*)\s*$', line)` additionally allows a single
dot inside the token (`12`, `12.`, `12.5`).  We compute on the reversed line:
`matchIntEnd` embeds the integer pattern (Python then applies `int`, whose
result we carry as `Int`), `matchFloatEnd` the decimal pattern (Python
`float`, carried exactly as `ℚ`). -/

def matchIntEnd (l : List Char) : Option Int :=
  let r := l.reverse.dropWhile isSpaceC
  let ds := r.takeWhile isDigitC
  if ds.isEmpty then none
  else
    match r.drop ds.length with
    | [] => none
    | c :: _ => if isSpaceC c then some ((natOfRevDigits ds : Nat) : Int) else none

def matchFloatEnd (l : List Char) : Option ℚ :=
  let r := l.reverse.dropWhile isSpaceC
  let d2 := r.takeWhile isDigitC
  let rest := r.drop d2.length
  if d2.isEmpty then
    -- token of the form `\d+.` (trailing dot): reversed line starts with `.`
    match rest with
    | '.' :: r2 =>
      let d1 := r2.takeWhile isDigitC
      if d1.isEmpty then none
      else
        match r2.drop d1.length with
        | [] => none
        | c :: _ => if isSpaceC c then some ((natOfRevDigits d1 : Nat) : ℚ) else none
    | _ => none
  else
    match rest with
    | [] => none
    | '.' :: r2 =>
      let d1 := r2.takeWhile isDigitC
      if d1.isEmpty then none
      else
        match r2.drop d1.length with
        | [] => none
        | c :: _ =>
          if isSpaceC c then
            some ((natOfRevDigits d1 : Nat) + ((natOfRevDigits d2 : Nat) : ℚ) / (10 : ℚ) ^ d2.length)
          else none
    | c :: _ => if isSpaceC c then some ((natOfRevDigits d2 : Nat) : ℚ) else none

/-! ### Line splitting (Python `raw.split('\n')`) -/

def splitOnNl : List Char → List (List Char)
  | [] => [[]]
  | c :: r =>
    if c = '\n' then [] :: splitOnNl r
    else
      match splitOnNl r with
      | h :: t => (c :: h) :: t
      | [] => [[c]]

/-! ### Timestamps

`datetime` is library code, not part of this repository; the script only
relies on `fromisoformat (isoformat t) = t`.  We model a timestamp abstractly
as a `Nat` and its ISO text as its decimal rendering, which has the same
round-trip property. -/

abbrev Timestamp := Nat

def digitChar (n : Nat) : Char := Char.ofNat (48 + n)

def natToRevDigits : Nat → List Char
  | 0 => []
  | n + 1 => digitChar ((n + 1) % 10) :: natToRevDigits ((n + 1) / 10)
decreasing_by exact Nat.div_lt_self (Nat.succ_pos n) (by norm_num)

def isoformat (t : Timestamp) : List Char :=
  if t = 0 then ['0'] else (natToRevDigits t).reverse

def fromisoformat (l : List Char) : Option Timestamp :=
  if l.isEmpty then none
  else if l.all isDigitC then some (natOfRevDigits l.reverse) else none

/-! ### The snapshot dataclass -/

structure MetricsSnapshot where
  timestamp : Timestamp
  upstream_query_count : Int
  readyset_query_count : Int
  upstream_p50_us : ℚ
  upstream_p99_us : ℚ
  readyset_p50_us : ℚ
  readyset_p99_us : ℚ
  memory_bytes : Int
  client_connections : Int
  upstream_connections : Int
  cache_hit_rate : ℚ
deriving DecidableEq

/-- `MetricsSnapshot(timestamp=now)`: every other field takes its dataclass
default `0`. -/
def MetricsSnapshot.init (now : Timestamp) : MetricsSnapshot :=
  { timestamp := now
    upstream_query_count := 0
    readyset_query_count := 0
    upstream_p50_us := 0
    upstream_p99_us := 0
    readyset_p50_us := 0
    readyset_p99_us := 0
    memory_bytes := 0
    client_connections := 0
    upstream_connections := 0
    cache_hit_rate := 0 }

/-! ### The classifier substrings used by `parse_metrics` -/

def pCount : List Char := "execution_time_us_count".toList

def pUpstream : List Char := "database_type=\"upstream\"".toList

def pReadyset : List Char := "database_type=\"readyset\"".toList

def pLatBrace : List Char := "execution_time_us".toList ++ ['\x7b']

def pLatSpace : List Char := "execution_time_us ".toList

def pQ50 : List Char := "quantile=\"0.5\"".toList

def pQ99 : List Char := "quantile=\"0.99\"".toList

def pMem : List Char := "readyset_allocator_resident_bytes".toList

def pClients : List Char := "noria_client_connected_clients".toList

def pUpConn : List Char := "client_upstream_connections".toList

/-! ### Per-line processing of `parse_metrics`, one `def` per independent
`if` block of the Python loop body. -/

/-- Query execution counts block. -/
def updCounts (s : MetricsSnapshot) (l : List Char) : MetricsSnapshot :=
  if containsSub pCount l then
    if containsSub pUpstream l then
      match matchIntEnd l with
      | some v => { s with upstream_query_count := v }
      | none => s
    else if containsSub pReadyset l then
      match matchIntEnd l with
      | some v => { s with readyset_query_count := v }
      | none => s
    else s
  else s

/-- Query latencies block. -/
def updLatencies (s : MetricsSnapshot) (l : List Char) : MetricsSnapshot :=
  if containsSub pLatBrace l || containsSub pLatSpace l then
    if containsSub pUpstream l then
      if containsSub pQ50 l then
        match matchFloatEnd l with
        | some v => { s with upstream_p50_us := v }
        | none => s
      else if containsSub pQ99 l then
        match matchFloatEnd l with
        | some v => { s with upstream_p99_us := v }
        | none => s
      else s
    else if containsSub pReadyset l then
      if containsSub pQ50 l then
        match matchFloatEnd l with
        | some v => { s with readyset_p50_us := v }
        | none => s
      else if containsSub pQ99 l then
        match matchFloatEnd l with
        | some v => { s with readyset_p99_us := v }
        | none => s
      else s
    else s
  else s

/-- Memory block (`line.startswith('readyset_allocator_resident_bytes')`). -/
def updMemory (s : MetricsSnapshot) (l : List Char) : MetricsSnapshot :=
  if pMem.isPrefixOf l then
    match matchIntEnd l with
    | some v => { s with memory_bytes := v }
    | none => s
  else s

/-- Client connections block. -/
def updClients (s : MetricsSnapshot) (l : List Char) : MetricsSnapshot :=
  if containsSub pClients l then
    match matchIntEnd l with
    | some v => { s with client_connections := v }
    | none => s
  else s

/-- Upstream connections block. -/
def updUpConn (s : MetricsSnapshot) (l : List Char) : MetricsSnapshot :=
  if containsSub pUpConn l then
    match matchIntEnd l with
    | some v => { s with upstream_connections := v }
    | none => s
  else s

/-- Python `line.startswith('#') or not line.strip()`. -/
def skipLine (l : List Char) : Bool :=
  (match l with
   | c :: _ => c = '#'
   | [] => false) || l.all isSpaceC

/-- One iteration of the `for line in raw.split('\n')` body. -/
def applyLine (s : MetricsSnapshot) (l : List Char) : MetricsSnapshot :=
  if skipLine l then s
  else updUpConn (updClients (updMemory (updLatencies (updCounts s l) l) l) l) l

/-- `ReadySetMetricsCollector.parse_metrics`: fold the line processor over the
split input starting from the zero-defaulted snapshot, then derive
`cache_hit_rate`. -/
def parse_metrics (now : Timestamp) (raw : List Char) : MetricsSnapshot :=
  let s := (splitOnNl raw).foldl applyLine (MetricsSnapshot.init now)
  let total := s.upstream_query_count + s.readyset_query_count
  if 0 < total then
    { s with cache_hit_rate := ((s.readyset_query_count : ℚ) / (total : ℚ)) * 100 }
  else s

/-! ### JSON persistence layer

`save` dumps `[s.to_dict() for s in snapshots]`; `load` reads the array back
and rebuilds snapshots with `MetricsSnapshot.from_dict`.  We model the parsed
JSON value of one record as an association list from field name to a JSON
scalar; Python/JSON string and number serialisation is faithful for these
values, so the file content is modelled directly by the record list. -/

inductive JVal where
  | jstr : List Char → JVal
  | jint : Int → JVal
  | jrat : ℚ → JVal
deriving DecidableEq

abbrev JRecord := List (String × JVal)

def lookupJ (k : String) : JRecord → Option JVal
  | [] => none
  | (k', v) :: r => if k' = k then some v else lookupJ k r

/-- Python exceptions that the persistence code can raise:
`KeyError` from `d['timestamp']`, `ValueError` from
`datetime.fromisoformat`, `TypeError` from `cls(**d)` with an unexpected
keyword (or a non-string timestamp value). -/
inductive PyErr where
  | keyError
  | valueError
  | typeError
deriving DecidableEq

/-- `MetricsSnapshot.to_dict`: `asdict(self)` (fields in declaration order)
with the timestamp replaced by its ISO text. -/
def to_dict (s : MetricsSnapshot) : JRecord :=
  [ ("timestamp", JVal.jstr (isoformat s.timestamp))
  , ("upstream_query_count", JVal.jint s.upstream_query_count)
  , ("readyset_query_count", JVal.jint s.readyset_query_count)
  , ("upstream_p50_us", JVal.jrat s.upstream_p50_us)
  , ("upstream_p99_us", JVal.jrat s.upstream_p99_us)
  , ("readyset_p50_us", JVal.jrat s.readyset_p50_us)
  , ("readyset_p99_us", JVal.jrat s.readyset_p99_us)
  , ("memory_bytes", JVal.jint s.memory_bytes)
  , ("client_connections", JVal.jint s.client_connections)
  , ("upstream_connections", JVal.jint s.upstream_connections)
  , ("cache_hit_rate", JVal.jrat s.cache_hit_rate) ]

/-- The dataclass field names: `cls(**d)` accepts exactly these keywords. -/
def fieldNames : List String :=
  [ "timestamp", "upstream_query_count", "readyset_query_count"
  , "upstream_p50_us", "upstream_p99_us", "readyset_p50_us", "readyset_p99_us"
  , "memory_bytes", "client_connections", "upstream_connections", "cache_hit_rate" ]

/-- Read an `int`-typed dataclass field: absent keys take the dataclass
default `0`.  (Python performs no runtime type check; every record written by
`save` carries the declared type, which the typed embedding requires.) -/
def getIntField (k : String) (d : JRecord) : Except PyErr Int :=
  match lookupJ k d with
  | none => Except.ok 0
  | some (JVal.jint n) => Except.ok n
  | some _ => Except.error PyErr.typeError

/-- Read a `float`-typed dataclass field (a JSON integer is accepted, as
Python `float` fields accept `int` values). -/
def getRatField (k : String) (d : JRecord) : Except PyErr ℚ :=
  match lookupJ k d with
  | none => Except.ok 0
  | some (JVal.jint n) => Except.ok (n : ℚ)
  | some (JVal.jrat q) => Except.ok q
  | some (JVal.jstr _) => Except.error PyErr.typeError

/-- The statement `d['timestamp'] = datetime.fromisoformat(d['timestamp'])`:
KeyError if the key is absent, TypeError if its value is not a string,
ValueError if the string does not parse. -/
def tsOf (d : JRecord) : Except PyErr Timestamp :=
  match lookupJ "timestamp" d with
  | none => Except.error PyErr.keyError
  | some (JVal.jstr ts) =>
    match fromisoformat ts with
    | none => Except.error PyErr.valueError
    | some t => Except.ok t
  | some _ => Except.error PyErr.typeError

/-- `MetricsSnapshot.from_dict`: first the timestamp conversion (`tsOf`),
then `cls(**d)` (TypeError on any key outside the dataclass fields; absent
non-timestamp fields take their dataclass default 0). -/
def from_dict (d : JRecord) : Except PyErr MetricsSnapshot := do
  let t ← tsOf d
  if d.all (fun p => fieldNames.contains p.1) then do
        let uqc ← getIntField "upstream_query_count" d
        let rqc ← getIntField "readyset_query_count" d
        let up50 ← getRatField "upstream_p50_us" d
        let up99 ← getRatField "upstream_p99_us" d
        let rp50 ← getRatField "readyset_p50_us" d
        let rp99 ← getRatField "readyset_p99_us" d
        let mem ← getIntField "memory_bytes" d
        let cc ← getIntField "client_connections" d
        let uc ← getIntField "upstream_connections" d
        let chr ← getRatField "cache_hit_rate" d
        pure { timestamp := t
               upstream_query_count := uqc
               readyset_query_count := rqc
               upstream_p50_us := up50
               upstream_p99_us := up99
               readyset_p50_us := rp50
               readyset_p99_us := rp99
               memory_bytes := mem
               client_connections := cc
               upstream_connections := uc
               cache_hit_rate := chr }
  else Except.error PyErr.typeError

/-- `ReadySetMetricsCollector.save`: the JSON file content as record list. -/
def save (snapshots : List MetricsSnapshot) : List JRecord :=
  snapshots.map to_dict

/-- The list comprehension `[MetricsSnapshot.from_dict(d) for d in data]`:
records are deserialised in order and the first exception aborts the whole
comprehension. -/
def loadRecords : List JRecord → Except PyErr (List MetricsSnapshot)
  | [] => Except.ok []
  | d :: t =>
    match from_dict d with
    | Except.error e => Except.error e
    | Except.ok s =>
      match loadRecords t with
      | Except.error e => Except.error e
      | Except.ok l => Except.ok (s :: l)

/-- `ReadySetMetricsCollector.load`: `self.snapshots` is assigned only after
the whole comprehension succeeds, so on an exception the in-memory sequence
is unchanged.  Returns the new sequence and the raised exception (if any). -/
def load (snapshots : List MetricsSnapshot) (fileData : List JRecord) :
    List MetricsSnapshot × Option PyErr :=
  match loadRecords fileData with
  | Except.ok l => (l, none)
  | Except.error e => (snapshots, some e)

/-! ### Collector tick and summary statistics -/

/-- `ReadySetMetricsCollector.collect_once`, with the transport modelled as a
parameter: `fetch_metrics` returns `none` on any transport failure, otherwise
the response body.  `if raw:` is Python truthiness: `None` and the empty
string both skip the append. -/
def collect_once (fetched : Option (List Char)) (now : Timestamp)
    (snapshots : List MetricsSnapshot) :
    Option MetricsSnapshot × List MetricsSnapshot :=
  match fetched with
  | none => (none, snapshots)
  | some raw =>
    if raw.isEmpty then (none, snapshots)
    else
      let s := parse_metrics now raw
      (some s, snapshots ++ [s])

def avg_upstream_p50 (snapshots : List MetricsSnapshot) : ℚ :=
  (snapshots.map (fun s => s.upstream_p50_us)).sum / (snapshots.length : ℚ)

def avg_readyset_p50 (snapshots : List MetricsSnapshot) : ℚ :=
  (snapshots.map (fun s => s.readyset_p50_us)).sum / (snapshots.length : ℚ)

/-- The speedup statistic of `MetricsVisualizer.print_summary`: printed only
under `if avg_readyset_p50 > 0`; `none` means the division is never
performed and the line is omitted. -/
def speedupStat (snapshots : List MetricsSnapshot) : Option ℚ :=
  if 0 < avg_readyset_p50 snapshots then
    some (avg_upstream_p50 snapshots / avg_readyset_p50 snapshots)
  else none

/-! ### Derived predicates used by the statements -/

/-- A line is recognized when it passes at least one of the classifier tests
of the loop body; every update in `applyLine` is guarded by one of these. -/
def lineRecognized (l : List Char) : Bool :=
  containsSub pCount l || containsSub pLatBrace l || containsSub pLatSpace l ||
    pMem.isPrefixOf l || containsSub pClients l || containsSub pUpConn l

/-- Each of the nine extracted metric fields of `s` is either the zero
default or the value extracted (by the integer or decimal trailing-token
pattern, according to the field's type) from some line of `raw`. -/
def FieldProvenance (s : MetricsSnapshot) (raw : List Char) : Prop :=
  (s.upstream_query_count = 0 ∨ ∃ l ∈ splitOnNl raw, matchIntEnd l = some s.upstream_query_count) ∧
  (s.readyset_query_count = 0 ∨ ∃ l ∈ splitOnNl raw, matchIntEnd l = some s.readyset_query_count) ∧
  (s.upstream_p50_us = 0 ∨ ∃ l ∈ splitOnNl raw, matchFloatEnd l = some s.upstream_p50_us) ∧
  (s.upstream_p99_us = 0 ∨ ∃ l ∈ splitOnNl raw, matchFloatEnd l = some s.upstream_p99_us) ∧
  (s.readyset_p50_us = 0 ∨ ∃ l ∈ splitOnNl raw, matchFloatEnd l = some s.readyset_p50_us) ∧
  (s.readyset_p99_us = 0 ∨ ∃ l ∈ splitOnNl raw, matchFloatEnd l = some s.readyset_p99_us) ∧
  (s.memory_bytes = 0 ∨ ∃ l ∈ splitOnNl raw, matchIntEnd l = some s.memory_bytes) ∧
  (s.client_connections = 0 ∨ ∃ l ∈ splitOnNl raw, matchIntEnd l = some s.client_connections) ∧
  (s.upstream_connections = 0 ∨ ∃ l ∈ splitOnNl raw, matchIntEnd l = some s.upstream_connections)

/-! ## Lemmas: the per-line updates -/

theorem updCounts_eq_self {s : MetricsSnapshot} {l : List Char}
    (h : containsSub pCount l = false) : updCounts s l = s := by
  simp [updCounts, h]

theorem updLatencies_eq_self {s : MetricsSnapshot} {l : List Char}
    (h1 : containsSub pLatBrace l = false) (h2 : containsSub pLatSpace l = false) :
    updLatencies s l = s := by
  simp [updLatencies, h1, h2]

theorem updMemory_eq_self {s : MetricsSnapshot} {l : List Char}
    (h : pMem.isPrefixOf l = false) : updMemory s l = s := by
  simp [updMemory, h]

theorem updClients_eq_self {s : MetricsSnapshot} {l : List Char}
    (h : containsSub pClients l = false) : updClients s l = s := by
  simp [updClients, h]

theorem updUpConn_eq_self {s : MetricsSnapshot} {l : List Char}
    (h : containsSub pUpConn l = false) : updUpConn s l = s := by
  simp [updUpConn, h]

theorem applyLine_eq_self {s : MetricsSnapshot} {l : List Char}
    (h : lineRecognized l = false) : applyLine s l = s := by
  simp only [lineRecognized, Bool.or_eq_false_iff] at h
  obtain ⟨⟨⟨⟨⟨h1, h2⟩, h3⟩, h4⟩, h5⟩, h6⟩ := h
  unfold applyLine
  split
  · rfl
  · rw [updCounts_eq_self h1, updLatencies_eq_self h2 h3, updMemory_eq_self h4,
      updClients_eq_self h5, updUpConn_eq_self h6]

theorem foldl_applyLine_eq_self {lines : List (List Char)} {s : MetricsSnapshot}
    (h : ∀ l ∈ lines, lineRecognized l = false) :
    lines.foldl applyLine s = s := by
  induction lines generalizing s with
  | nil => rfl
  | cons x t ih =>
    rw [List.foldl_cons, applyLine_eq_self (h x (by simp))]
    exact ih (fun l hl => h l (by simp [hl]))

theorem updCounts_char (s : MetricsSnapshot) (l : List Char) :
    ∃ u r, updCounts s l =
        { s with upstream_query_count := u, readyset_query_count := r } ∧
      (u = s.upstream_query_count ∨ matchIntEnd l = some u) ∧
      (r = s.readyset_query_count ∨ matchIntEnd l = some r) := by
  unfold updCounts
  cases h1 : containsSub pCount l with
  | false => exact ⟨_, _, rfl, Or.inl rfl, Or.inl rfl⟩
  | true =>
    cases h2 : containsSub pUpstream l with
    | true =>
      cases h3 : matchIntEnd l with
      | none => exact ⟨_, _, rfl, Or.inl rfl, Or.inl rfl⟩
      | some v => exact ⟨v, _, rfl, Or.inr rfl, Or.inl rfl⟩
    | false =>
      cases h4 : containsSub pReadyset l with
      | false => exact ⟨_, _, rfl, Or.inl rfl, Or.inl rfl⟩
      | true =>
        cases h5 : matchIntEnd l with
        | none => exact ⟨_, _, rfl, Or.inl rfl, Or.inl rfl⟩
        | some v => exact ⟨_, v, rfl, Or.inl rfl, Or.inr rfl⟩

theorem updLatencies_char (s : MetricsSnapshot) (l : List Char) :
    ∃ a b c d, updLatencies s l =
        { s with upstream_p50_us := a, upstream_p99_us := b,
                 readyset_p50_us := c, readyset_p99_us := d } ∧
      (a = s.upstream_p50_us ∨ matchFloatEnd l = some a) ∧
      (b = s.upstream_p99_us ∨ matchFloatEnd l = some b) ∧
      (c = s.readyset_p50_us ∨ matchFloatEnd l = some c) ∧
      (d = s.readyset_p99_us ∨ matchFloatEnd l = some d) := by
  unfold updLatencies
  cases h1 : (containsSub pLatBrace l || containsSub pLatSpace l) with
  | false => exact ⟨_, _, _, _, rfl, Or.inl rfl, Or.inl rfl, Or.inl rfl, Or.inl rfl⟩
  | true =>
    cases h2 : containsSub pUpstream l with
    | true =>
      cases h3 : containsSub pQ50 l with
      | true =>
        cases h4 : matchFloatEnd l with
        | none => exact ⟨_, _, _, _, rfl, Or.inl rfl, Or.inl rfl, Or.inl rfl, Or.inl rfl⟩
        | some v => exact ⟨v, _, _, _, rfl, Or.inr rfl, Or.inl rfl, Or.inl rfl, Or.inl rfl⟩
      | false =>
        cases h5 : containsSub pQ99 l with
        | false => exact ⟨_, _, _, _, rfl, Or.inl rfl, Or.inl rfl, Or.inl rfl, Or.inl rfl⟩
        | true =>
          cases h6 : matchFloatEnd l with
          | none => exact ⟨_, _, _, _, rfl, Or.inl rfl, Or.inl rfl, Or.inl rfl, Or.inl rfl⟩
          | some v => exact ⟨_, v, _, _, rfl, Or.inl rfl, Or.inr rfl, Or.inl rfl, Or.inl rfl⟩
    | false =>
      cases h7 : containsSub pReadyset l with
      | false => exact ⟨_, _, _, _, rfl, Or.inl rfl, Or.inl rfl, Or.inl rfl, Or.inl rfl⟩
      | true =>
        cases h8 : containsSub pQ50 l with
        | true =>
          cases h9 : matchFloatEnd l with
          | none => exact ⟨_, _, _, _, rfl, Or.inl rfl, Or.inl rfl, Or.inl rfl, Or.inl rfl⟩
          | some v => exact ⟨_, _, v, _, rfl, Or.inl rfl, Or.inl rfl, Or.inr rfl, Or.inl rfl⟩
        | false =>
          cases h10 : containsSub pQ99 l with
          | false => exact ⟨_, _, _, _, rfl, Or.inl rfl, Or.inl rfl, Or.inl rfl, Or.inl rfl⟩
          | true =>
            cases h11 : matchFloatEnd l with
            | none => exact ⟨_, _, _, _, rfl, Or.inl rfl, Or.inl rfl, Or.inl rfl, Or.inl rfl⟩
            | some v => exact ⟨_, _, _, v, rfl, Or.inl rfl, Or.inl rfl, Or.inl rfl, Or.inr rfl⟩

theorem updMemory_char (s : MetricsSnapshot) (l : List Char) :
    ∃ m, updMemory s l = { s with memory_bytes := m } ∧
      (m = s.memory_bytes ∨ matchIntEnd l = some m) := by
  unfold updMemory
  cases h1 : pMem.isPrefixOf l with
  | false => exact ⟨_, rfl, Or.inl rfl⟩
  | true =>
    cases h2 : matchIntEnd l with
    | none => exact ⟨_, rfl, Or.inl rfl⟩
    | some v => exact ⟨v, rfl, Or.inr rfl⟩

theorem updClients_char (s : MetricsSnapshot) (l : List Char) :
    ∃ k, updClients s l = { s with client_connections := k } ∧
      (k = s.client_connections ∨ matchIntEnd l = some k) := by
  unfold updClients
  cases h1 : containsSub pClients l with
  | false => exact ⟨_, rfl, Or.inl rfl⟩
  | true =>
    cases h2 : matchIntEnd l with
    | none => exact ⟨_, rfl, Or.inl rfl⟩
    | some v => exact ⟨v, rfl, Or.inr rfl⟩

theorem updUpConn_char (s : MetricsSnapshot) (l : List Char) :
    ∃ w, updUpConn s l = { s with upstream_connections := w } ∧
      (w = s.upstream_connections ∨ matchIntEnd l = some w) := by
  unfold updUpConn
  cases h1 : containsSub pUpConn l with
  | false => exact ⟨_, rfl, Or.inl rfl⟩
  | true =>
    cases h2 : matchIntEnd l with
    | none => exact ⟨_, rfl, Or.inl rfl⟩
    | some v => exact ⟨v, rfl, Or.inr rfl⟩

/-- One line changes only the nine extracted fields, and any changed field
takes a value produced by the corresponding trailing-token matcher. -/
theorem applyLine_char (s : MetricsSnapshot) (l : List Char) :
    ∃ u r a b c d m k w, applyLine s l =
        { s with upstream_query_count := u, readyset_query_count := r,
                 upstream_p50_us := a, upstream_p99_us := b,
                 readyset_p50_us := c, readyset_p99_us := d,
                 memory_bytes := m, client_connections := k,
                 upstream_connections := w } ∧
      (u = s.upstream_query_count ∨ matchIntEnd l = some u) ∧
      (r = s.readyset_query_count ∨ matchIntEnd l = some r) ∧
      (a = s.upstream_p50_us ∨ matchFloatEnd l = some a) ∧
      (b = s.upstream_p99_us ∨ matchFloatEnd l = some b) ∧
      (c = s.readyset_p50_us ∨ matchFloatEnd l = some c) ∧
      (d = s.readyset_p99_us ∨ matchFloatEnd l = some d) ∧
      (m = s.memory_bytes ∨ matchIntEnd l = some m) ∧
      (k = s.client_connections ∨ matchIntEnd l = some k) ∧
      (w = s.upstream_connections ∨ matchIntEnd l = some w) := by
  unfold applyLine
  cases hs : skipLine l with
  | true =>
    exact ⟨_, _, _, _, _, _, _, _, _, rfl, Or.inl rfl, Or.inl rfl, Or.inl rfl,
      Or.inl rfl, Or.inl rfl, Or.inl rfl, Or.inl rfl, Or.inl rfl, Or.inl rfl⟩
  | false =>
    obtain ⟨u, r, e1, hu, hr⟩ := updCounts_char s l
    rw [e1]
    obtain ⟨a, b, c, d, e2, ha, hb, hc, hd⟩ :=
      updLatencies_char { s with upstream_query_count := u, readyset_query_count := r } l
    rw [e2]
    obtain ⟨m, e3, hm⟩ := updMemory_char _ l
    rw [e3]
    obtain ⟨k, e4, hk⟩ := updClients_char _ l
    rw [e4]
    obtain ⟨w, e5, hw⟩ := updUpConn_char _ l
    rw [e5]
    exact ⟨u, r, a, b, c, d, m, k, w, rfl, hu, hr, ha, hb, hc, hd, hm, hk, hw⟩

/-- Combining step for field provenance across one processed line. -/
theorem provStep {α : Type} {gf af s0f : α} {mf : List Char → Option α}
    {x : List Char} {t : List (List Char)}
    (h1 : gf = af ∨ ∃ l ∈ t, mf l = some gf)
    (h2 : af = s0f ∨ mf x = some af) :
    gf = s0f ∨ ∃ l ∈ x :: t, mf l = some gf := by
  rcases h1 with h1 | ⟨l, hl, hm⟩
  · subst h1
    rcases h2 with h2 | h2
    · exact Or.inl h2
    · exact Or.inr ⟨x, by simp, h2⟩
  · exact Or.inr ⟨l, by simp [hl], hm⟩

/-- Folding the line processor: timestamp and `cache_hit_rate` are never
touched, and every extracted field is either untouched or a matcher value of
one of the processed lines. -/
theorem foldl_applyLine_char (lines : List (List Char)) (s0 : MetricsSnapshot) :
    (lines.foldl applyLine s0).timestamp = s0.timestamp ∧
    (lines.foldl applyLine s0).cache_hit_rate = s0.cache_hit_rate ∧
    ((lines.foldl applyLine s0).upstream_query_count = s0.upstream_query_count ∨
      ∃ l ∈ lines, matchIntEnd l = some (lines.foldl applyLine s0).upstream_query_count) ∧
    ((lines.foldl applyLine s0).readyset_query_count = s0.readyset_query_count ∨
      ∃ l ∈ lines, matchIntEnd l = some (lines.foldl applyLine s0).readyset_query_count) ∧
    ((lines.foldl applyLine s0).upstream_p50_us = s0.upstream_p50_us ∨
      ∃ l ∈ lines, matchFloatEnd l = some (lines.foldl applyLine s0).upstream_p50_us) ∧
    ((lines.foldl applyLine s0).upstream_p99_us = s0.upstream_p99_us ∨
      ∃ l ∈ lines, matchFloatEnd l = some (lines.foldl applyLine s0).upstream_p99_us) ∧
    ((lines.foldl applyLine s0).readyset_p50_us = s0.readyset_p50_us ∨
      ∃ l ∈ lines, matchFloatEnd l = some (lines.foldl applyLine s0).readyset_p50_us) ∧
    ((lines.foldl applyLine s0).readyset_p99_us = s0.readyset_p99_us ∨
      ∃ l ∈ lines, matchFloatEnd l = some (lines.foldl applyLine s0).readyset_p99_us) ∧
    ((lines.foldl applyLine s0).memory_bytes = s0.memory_bytes ∨
      ∃ l ∈ lines, matchIntEnd l = some (lines.foldl applyLine s0).memory_bytes) ∧
    ((lines.foldl applyLine s0).client_connections = s0.client_connections ∨
      ∃ l ∈ lines, matchIntEnd l = some (lines.foldl applyLine s0).client_connections) ∧
    ((lines.foldl applyLine s0).upstream_connections = s0.upstream_connections ∨
      ∃ l ∈ lines, matchIntEnd l = some (lines.foldl applyLine s0).upstream_connections) := by
  induction lines generalizing s0 with
  | nil =>
    exact ⟨rfl, rfl, Or.inl rfl, Or.inl rfl, Or.inl rfl, Or.inl rfl, Or.inl rfl,
      Or.inl rfl, Or.inl rfl, Or.inl rfl, Or.inl rfl⟩
  | cons x t ih =>
    obtain ⟨u, r, a, b, c, d, m, k, w, heq, hu, hr, ha, hb, hc, hd, hm, hk, hw⟩ :=
      applyLine_char s0 x
    obtain ⟨its, ichr, i1, i2, i3, i4, i5, i6, i7, i8, i9⟩ := ih (applyLine s0 x)
    rw [List.foldl_cons]
    rw [heq] at its ichr i1 i2 i3 i4 i5 i6 i7 i8 i9
    rw [heq]
    exact ⟨its, ichr,
      provStep i1 hu, provStep i2 hr, provStep i3 ha, provStep i4 hb,
      provStep i5 hc, provStep i6 hd, provStep i7 hm, provStep i8 hk, provStep i9 hw⟩

/-! ## Lemmas: the trailing-token matchers produce only non-negative values -/

theorem matchIntEnd_nonneg {l : List Char} {v : Int} (h : matchIntEnd l = some v) :
    0 ≤ v := by
  simp only [matchIntEnd] at h
  split at h
  · exact absurd h (by simp)
  · split at h
    · exact absurd h (by simp)
    · split at h
      · rw [Option.some.injEq] at h
        subst h
        exact Int.natCast_nonneg _
      · exact absurd h (by simp)

theorem matchFloatEnd_nonneg {l : List Char} {v : ℚ} (h : matchFloatEnd l = some v) :
    0 ≤ v := by
  simp only [matchFloatEnd] at h
  split at h
  · split at h
    · split at h
      · exact absurd h (by simp)
      · split at h
        · exact absurd h (by simp)
        · split at h
          · rw [Option.some.injEq] at h
            subst h
            positivity
          · exact absurd h (by simp)
    · exact absurd h (by simp)
  · split at h
    · exact absurd h (by simp)
    · split at h
      · exact absurd h (by simp)
      · split at h
        · exact absurd h (by simp)
        · split at h
          · rw [Option.some.injEq] at h
            subst h
            positivity
          · exact absurd h (by simp)
    · split at h
      · rw [Option.some.injEq] at h
        subst h
        positivity
      · exact absurd h (by simp)

theorem int_prov_nonneg {v : Int} {L : List (List Char)}
    (h : v = 0 ∨ ∃ l ∈ L, matchIntEnd l = some v) : 0 ≤ v := by
  rcases h with h | ⟨l, _, hm⟩
  · rw [h]
  · exact matchIntEnd_nonneg hm

theorem rat_prov_nonneg {v : ℚ} {L : List (List Char)}
    (h : v = 0 ∨ ∃ l ∈ L, matchFloatEnd l = some v) : 0 ≤ v := by
  rcases h with h | ⟨l, _, hm⟩
  · rw [h]
  · exact matchFloatEnd_nonneg hm

/-! ## Lemmas: `parse_metrics` -/

/-- `parse_metrics` in terms of the line fold: the query counts come straight
from the fold, and `cache_hit_rate` is derived at the end. -/
theorem parse_metrics_decomp (now : Timestamp) (raw : List Char) :
    ∃ g, (splitOnNl raw).foldl applyLine (MetricsSnapshot.init now) = g ∧
      (parse_metrics now raw).upstream_query_count = g.upstream_query_count ∧
      (parse_metrics now raw).readyset_query_count = g.readyset_query_count ∧
      (parse_metrics now raw).cache_hit_rate =
        (if 0 < g.upstream_query_count + g.readyset_query_count then
          ((g.readyset_query_count : ℚ) /
            ((g.upstream_query_count + g.readyset_query_count : Int) : ℚ)) * 100
         else g.cache_hit_rate) := by
  refine ⟨_, rfl, ?_, ?_, ?_⟩
  · simp only [parse_metrics]
    split <;> rfl
  · simp only [parse_metrics]
    split <;> rfl
  · simp only [parse_metrics]
    split <;> rfl

theorem parse_metrics_provenance (now : Timestamp) (raw : List Char) :
    FieldProvenance (parse_metrics now raw) raw := by
  obtain ⟨hts, hchr, h1, h2, h3, h4, h5, h6, h7, h8, h9⟩ :=
    foldl_applyLine_char (splitOnNl raw) (MetricsSnapshot.init now)
  unfold FieldProvenance
  simp only [parse_metrics]
  split
  · exact ⟨h1, h2, h3, h4, h5, h6, h7, h8, h9⟩
  · exact ⟨h1, h2, h3, h4, h5, h6, h7, h8, h9⟩

theorem parse_metrics_fields_nonneg (now : Timestamp) (raw : List Char) :
    0 ≤ (parse_metrics now raw).upstream_query_count ∧
    0 ≤ (parse_metrics now raw).readyset_query_count ∧
    0 ≤ (parse_metrics now raw).upstream_p50_us ∧
    0 ≤ (parse_metrics now raw).upstream_p99_us ∧
    0 ≤ (parse_metrics now raw).readyset_p50_us ∧
    0 ≤ (parse_metrics now raw).readyset_p99_us ∧
    0 ≤ (parse_metrics now raw).memory_bytes ∧
    0 ≤ (parse_metrics now raw).client_connections ∧
    0 ≤ (parse_metrics now raw).upstream_connections := by
  have hp := parse_metrics_provenance now raw
  unfold FieldProvenance at hp
  obtain ⟨h1, h2, h3, h4, h5, h6, h7, h8, h9⟩ := hp
  exact ⟨int_prov_nonneg h1, int_prov_nonneg h2, rat_prov_nonneg h3,
    rat_prov_nonneg h4, rat_prov_nonneg h5, rat_prov_nonneg h6,
    int_prov_nonneg h7, int_prov_nonneg h8, int_prov_nonneg h9⟩

/-- The derived-field formula, stated over the fields of the result. -/
theorem parse_metrics_chr_formula (now : Timestamp) (raw : List Char) :
    (parse_metrics now raw).cache_hit_rate =
      if 0 < (parse_metrics now raw).upstream_query_count +
          (parse_metrics now raw).readyset_query_count then
        100 * ((parse_metrics now raw).readyset_query_count : ℚ) /
          (((parse_metrics now raw).upstream_query_count : ℚ) +
            ((parse_metrics now raw).readyset_query_count : ℚ))
      else 0 := by
  obtain ⟨g, hg, hu, hr, hc⟩ := parse_metrics_decomp now raw
  obtain ⟨hts, hchr, _⟩ := foldl_applyLine_char (splitOnNl raw) (MetricsSnapshot.init now)
  rw [hg] at hchr
  have hchr0 : g.cache_hit_rate = 0 := hchr
  rw [hu, hr, hc, hchr0]
  by_cases hC : 0 < g.upstream_query_count + g.readyset_query_count
  · rw [if_pos hC, if_pos hC]
    push_cast
    ring
  · rw [if_neg hC, if_neg hC]

theorem parse_metrics_chr_bounds (now : Timestamp) (raw : List Char) :
    0 ≤ (parse_metrics now raw).cache_hit_rate ∧
      (parse_metrics now raw).cache_hit_rate ≤ 100 := by
  obtain ⟨hu, hr, _⟩ := parse_metrics_fields_nonneg now raw
  rw [parse_metrics_chr_formula now raw]
  by_cases hC : 0 < (parse_metrics now raw).upstream_query_count +
      (parse_metrics now raw).readyset_query_count
  · rw [if_pos hC]
    have ht : (0 : ℚ) < ((parse_metrics now raw).upstream_query_count : ℚ) +
        ((parse_metrics now raw).readyset_query_count : ℚ) := by
      exact_mod_cast hC
    have hx : (0 : ℚ) ≤ ((parse_metrics now raw).readyset_query_count : ℚ) := by
      exact_mod_cast hr
    have hxu : (0 : ℚ) ≤ ((parse_metrics now raw).upstream_query_count : ℚ) := by
      exact_mod_cast hu
    constructor
    · exact div_nonneg (by linarith) (le_of_lt ht)
    · rw [div_le_iff₀ ht]
      linarith
  · rw [if_neg hC]
    norm_num

theorem parse_metrics_of_unrecognized (now : Timestamp) (raw : List Char)
    (h : ∀ l ∈ splitOnNl raw, lineRecognized l = false) :
    parse_metrics now raw = MetricsSnapshot.init now := by
  simp only [parse_metrics]
  rw [foldl_applyLine_eq_self h]
  rfl

/-! ## Lemmas: the timestamp text round-trips -/

theorem isDigitC_digitChar {n : Nat} (h : n < 10) : isDigitC (digitChar n) = true := by
  interval_cases n <;> decide

theorem digitVal_digitChar {n : Nat} (h : n < 10) : digitVal (digitChar n) = n := by
  interval_cases n <;> decide

theorem natToRevDigits_all_digits (n : Nat) :
    ∀ c ∈ natToRevDigits n, isDigitC c = true := by
  induction n using Nat.strong_induction_on with
  | _ n ih =>
    cases n with
    | zero => intro c hc; simp [natToRevDigits] at hc
    | succ m =>
      intro c hc
      rw [natToRevDigits] at hc
      rcases List.mem_cons.mp hc with h | h
      · rw [h]
        exact isDigitC_digitChar (Nat.mod_lt _ (by norm_num))
      · exact ih ((m + 1) / 10) (Nat.div_lt_self (Nat.succ_pos m) (by norm_num)) c h

theorem natOfRevDigits_natToRevDigits (n : Nat) :
    natOfRevDigits (natToRevDigits n) = n := by
  induction n using Nat.strong_induction_on with
  | _ n ih =>
    cases n with
    | zero => rw [natToRevDigits]; rfl
    | succ m =>
      rw [natToRevDigits, natOfRevDigits,
        ih ((m + 1) / 10) (Nat.div_lt_self (Nat.succ_pos m) (by norm_num)),
        digitVal_digitChar (Nat.mod_lt _ (by norm_num))]
      exact Nat.mod_add_div (m + 1) 10

theorem fromisoformat_isoformat (t : Timestamp) :
    fromisoformat (isoformat t) = some t := by
  by_cases h0 : t = 0
  · subst h0
    decide
  · unfold isoformat
    rw [if_neg h0]
    have hne : natToRevDigits t ≠ [] := by
      cases t with
      | zero => exact absurd rfl h0
      | succ m => rw [natToRevDigits]; exact List.cons_ne_nil _ _
    have h1 : ((natToRevDigits t).reverse).isEmpty = false := by
      cases hcons : (natToRevDigits t).reverse with
      | nil => exact absurd (List.reverse_eq_nil_iff.mp hcons) hne
      | cons a l' => rfl
    have h2 : ((natToRevDigits t).reverse).all isDigitC = true := by
      rw [List.all_eq_true]
      intro c hc
      exact natToRevDigits_all_digits t c (List.mem_reverse.mp hc)
    unfold fromisoformat
    rw [h1, h2]
    simp [natOfRevDigits_natToRevDigits]

/-! ## Lemmas: persistence -/

theorem tsOf_to_dict (s : MetricsSnapshot) : tsOf (to_dict s) = Except.ok s.timestamp := by
  simp [tsOf, to_dict, lookupJ, fromisoformat_isoformat]

theorem from_dict_to_dict (s : MetricsSnapshot) : from_dict (to_dict s) = Except.ok s := by
  unfold from_dict
  rw [tsOf_to_dict]
  simp [to_dict, lookupJ, getIntField, getRatField, fieldNames]
  rfl

theorem loadRecords_save (S : List MetricsSnapshot) :
    loadRecords (save S) = Except.ok S := by
  induction S with
  | nil => rfl
  | cons s t ih =>
    have hcons : save (s :: t) = to_dict s :: save t := rfl
    rw [hcons]
    unfold loadRecords
    rw [from_dict_to_dict s, ih]

theorem tsOf_no_timestamp {d : JRecord} (h : lookupJ "timestamp" d = none) :
    tsOf d = Except.error PyErr.keyError := by
  unfold tsOf
  rw [h]

theorem from_dict_no_timestamp {d : JRecord} (h : lookupJ "timestamp" d = none) :
    from_dict d = Except.error PyErr.keyError := by
  unfold from_dict
  rw [tsOf_no_timestamp h]
  rfl

theorem from_dict_unknown_key {d : JRecord}
    (h : ∃ p ∈ d, fieldNames.contains p.1 = false) :
    ∃ e, from_dict d = Except.error e := by
  have hall : d.all (fun p => fieldNames.contains p.1) = false := by
    rcases h with ⟨p, hp, hfalse⟩
    cases hv : d.all (fun p => fieldNames.contains p.1) with
    | false => rfl
    | true =>
      have := List.all_eq_true.mp hv p hp
      rw [hfalse] at this
      exact absurd this (by simp)
  unfold from_dict
  cases ht : tsOf d with
  | error e => exact ⟨e, rfl⟩
  | ok t =>
    refine ⟨PyErr.typeError, ?_⟩
    simp only [hall]
    rfl

theorem loadRecords_error {data : List JRecord}
    (h : ∃ d ∈ data, ∃ e, from_dict d = Except.error e) :
    ∃ e, loadRecords data = Except.error e := by
  induction data with
  | nil =>
    rcases h with ⟨d, hd, _⟩
    exact absurd hd (by simp)
  | cons x t ih =>
    unfold loadRecords
    cases hx : from_dict x with
    | error e => exact ⟨e, rfl⟩
    | ok s =>
      rcases h with ⟨d, hd, e, he⟩
      rcases List.mem_cons.mp hd with rfl | hdt
      · rw [hx] at he
        exact absurd he (by simp)
      · obtain ⟨e', he'⟩ := ih ⟨d, hdt, e, he⟩
        rw [he']
        exact ⟨e', rfl⟩

theorem load_of_error {S : List MetricsSnapshot} {data : List JRecord}
    (h : ∃ e, loadRecords data = Except.error e) :
    ∃ e, load S data = (S, some e) := by
  obtain ⟨e, he⟩ := h
  refine ⟨e, ?_⟩
  unfold load
  rw [he]

/-! ## Lemmas: lines with a negative trailing token match neither pattern -/

theorem isSpaceC_eq_false_of_isDigitC {c : Char} (h : isDigitC c = true) :
    isSpaceC c = false := by
  simp [isDigitC] at h
  simp [isSpaceC]
  omega

theorem splitOnNl_single {l : List Char} (h : '\n' ∉ l) : splitOnNl l = [l] := by
  induction l with
  | nil => rfl
  | cons c r ih =>
    unfold splitOnNl
    have hc : ¬ c = '\n' := fun hceq => h (by rw [hceq]; exact List.mem_cons_self _ _)
    rw [if_neg hc, ih (fun hm => h (List.mem_cons_of_mem _ hm))]

theorem matchIntEnd_neg_token (pre d : List Char) (hd : d ≠ [])
    (hdig : ∀ c ∈ d, isDigitC c = true) :
    matchIntEnd (pre ++ '-' :: d) = none := by
  obtain ⟨c, cs, hrev⟩ : ∃ c cs, d.reverse = c :: cs := by
    cases hr : d.reverse with
    | nil => exact absurd (List.reverse_eq_nil_iff.mp hr) hd
    | cons a l' => exact ⟨a, l', rfl⟩
  have hmemrev : ∀ x ∈ d.reverse, isDigitC x = true :=
    fun x hx => hdig x (List.mem_reverse.mp hx)
  have hc : isDigitC c = true := hmemrev c (by rw [hrev]; exact List.mem_cons_self _ _)
  have hcs : isSpaceC c = false := isSpaceC_eq_false_of_isDigitC hc
  have h1 : (pre ++ '-' :: d).reverse.dropWhile isSpaceC = d.reverse ++ '-' :: pre.reverse := by
    have hfull : (pre ++ '-' :: d).reverse = d.reverse ++ '-' :: pre.reverse := by simp
    rw [hfull, hrev, List.cons_append,
      List.dropWhile_cons_of_neg (by simp [hcs]), ← List.cons_append, ← hrev]
  have h2 : (d.reverse ++ '-' :: pre.reverse).takeWhile isDigitC = d.reverse := by
    rw [List.takeWhile_append_of_pos hmemrev, List.takeWhile_cons_of_neg (by decide)]
    simp
  have h3 : (d.reverse).isEmpty = false := by rw [hrev]; rfl
  simp only [matchIntEnd]
  rw [h1, h2, h3]
  simp [List.drop_left, isSpaceC]

theorem matchFloatEnd_neg_token (pre d : List Char) (hd : d ≠ [])
    (hdig : ∀ c ∈ d, isDigitC c = true) :
    matchFloatEnd (pre ++ '-' :: d) = none := by
  obtain ⟨c, cs, hrev⟩ : ∃ c cs, d.reverse = c :: cs := by
    cases hr : d.reverse with
    | nil => exact absurd (List.reverse_eq_nil_iff.mp hr) hd
    | cons a l' => exact ⟨a, l', rfl⟩
  have hmemrev : ∀ x ∈ d.reverse, isDigitC x = true :=
    fun x hx => hdig x (List.mem_reverse.mp hx)
  have hc : isDigitC c = true := hmemrev c (by rw [hrev]; exact List.mem_cons_self _ _)
  have hcs : isSpaceC c = false := isSpaceC_eq_false_of_isDigitC hc
  have h1 : (pre ++ '-' :: d).reverse.dropWhile isSpaceC = d.reverse ++ '-' :: pre.reverse := by
    have hfull : (pre ++ '-' :: d).reverse = d.reverse ++ '-' :: pre.reverse := by simp
    rw [hfull, hrev, List.cons_append,
      List.dropWhile_cons_of_neg (by simp [hcs]), ← List.cons_append, ← hrev]
  have h2 : (d.reverse ++ '-' :: pre.reverse).takeWhile isDigitC = d.reverse := by
    rw [List.takeWhile_append_of_pos hmemrev, List.takeWhile_cons_of_neg (by decide)]
    simp
  have h3 : (d.reverse).isEmpty = false := by rw [hrev]; rfl
  simp only [matchFloatEnd]
  rw [h1, h2, h3]
  simp [List.drop_left, isSpaceC]

theorem applyLine_of_match_none {s : MetricsSnapshot} {l : List Char}
    (hi : matchIntEnd l = none) (hf : matchFloatEnd l = none) :
    applyLine s l = s := by
  simp only [applyLine, updCounts, updLatencies, updMemory, updClients, updUpConn,
    hi, hf, ite_self]

/-! ## Claim theorems -/

/-- C1: `parse_metrics` is total (it is a plain function on arbitrary input,
including empty and malformed text); every extracted field is either a value
parsed from a matching line or the zero default, and on input with no
recognized lines the result is the zero-defaulted snapshot (with timestamp
`now`). -/
theorem extract_total_zero_default (now : Timestamp) (raw : List Char) :
    FieldProvenance (parse_metrics now raw) raw ∧
    ((∀ l ∈ splitOnNl raw, lineRecognized l = false) →
      parse_metrics now raw = MetricsSnapshot.init now) :=
  ⟨parse_metrics_provenance now raw, parse_metrics_of_unrecognized now raw⟩

/-- C1 witness: a comment, a blank line and an unrecognized line yield the
zeroed snapshot. -/
theorem extract_total_zero_default_witness :
    (∀ l ∈ splitOnNl ("# comment\n\nsome junk 99".toList), lineRecognized l = false) ∧
    parse_metrics 0 ("# comment\n\nsome junk 99".toList) = MetricsSnapshot.init 0 :=
  ⟨by decide, (extract_total_zero_default 0 ("# comment\n\nsome junk 99".toList)).2 (by decide)⟩

/-- C2: an upstream count line ending in ` 42` and a readyset count line
ending in ` 8` give counts 42 and 8 and `cache_hit_rate = 16`. -/
theorem extract_concrete_counts_hit_rate :
    (parse_metrics 0 ("execution_time_us_count database_type=\"upstream\" 42".toList ++
        '\n' :: "execution_time_us_count database_type=\"readyset\" 8".toList)).upstream_query_count = 42 ∧
    (parse_metrics 0 ("execution_time_us_count database_type=\"upstream\" 42".toList ++
        '\n' :: "execution_time_us_count database_type=\"readyset\" 8".toList)).readyset_query_count = 8 ∧
    (parse_metrics 0 ("execution_time_us_count database_type=\"upstream\" 42".toList ++
        '\n' :: "execution_time_us_count database_type=\"readyset\" 8".toList)).cache_hit_rate = 16 := by
  have h1 : (parse_metrics 0 ("execution_time_us_count database_type=\"upstream\" 42".toList ++
      '\n' :: "execution_time_us_count database_type=\"readyset\" 8".toList)).upstream_query_count = 42 := by
    decide
  have h2 : (parse_metrics 0 ("execution_time_us_count database_type=\"upstream\" 42".toList ++
      '\n' :: "execution_time_us_count database_type=\"readyset\" 8".toList)).readyset_query_count = 8 := by
    decide
  refine ⟨h1, h2, ?_⟩
  rw [parse_metrics_chr_formula, h1, h2]
  norm_num

/-- C3: `cache_hit_rate` equals `100 * readyset / (upstream + readyset)` when
the denominator is positive and 0 otherwise, lies in [0, 100], and is 0 when
both counters are 0. -/
theorem cache_hit_rate_invariant (now : Timestamp) (raw : List Char) :
    ((parse_metrics now raw).cache_hit_rate =
      if 0 < (parse_metrics now raw).upstream_query_count +
          (parse_metrics now raw).readyset_query_count then
        100 * ((parse_metrics now raw).readyset_query_count : ℚ) /
          (((parse_metrics now raw).upstream_query_count : ℚ) +
            ((parse_metrics now raw).readyset_query_count : ℚ))
      else 0) ∧
    (0 ≤ (parse_metrics now raw).cache_hit_rate ∧
      (parse_metrics now raw).cache_hit_rate ≤ 100) ∧
    ((parse_metrics now raw).upstream_query_count = 0 ∧
        (parse_metrics now raw).readyset_query_count = 0 →
      (parse_metrics now raw).cache_hit_rate = 0) := by
  refine ⟨parse_metrics_chr_formula now raw, parse_metrics_chr_bounds now raw, ?_⟩
  rintro ⟨h0u, h0r⟩
  rw [parse_metrics_chr_formula now raw, h0u, h0r]
  norm_num

/-- C3 witness: on empty input both counters are 0 and the rate is 0. -/
theorem cache_hit_rate_invariant_witness :
    ((parse_metrics 0 []).upstream_query_count = 0 ∧
      (parse_metrics 0 []).readyset_query_count = 0) ∧
    (parse_metrics 0 []).cache_hit_rate = 0 :=
  ⟨by decide, (cache_hit_rate_invariant 0 []).2.2 (by decide)⟩

/-- C4: `load (save S)` restores any snapshot sequence field-for-field
(including the timestamp through its serialized text and the stored
`cache_hit_rate`), replacing whatever was in memory, with no error. -/
theorem load_save_roundtrip (old S : List MetricsSnapshot) :
    load old (save S) = (S, none) := by
  unfold load
  rw [loadRecords_save]

/-- C5: a record missing the required `timestamp` field makes `load` fail
and leaves the in-memory sequence unchanged. -/
theorem load_missing_required_field (S : List MetricsSnapshot) (data : List JRecord)
    (h : ∃ r ∈ data, lookupJ "timestamp" r = none) :
    ∃ e, load S data = (S, some e) :=
  load_of_error (loadRecords_error (by
    rcases h with ⟨r, hr, hn⟩
    exact ⟨r, hr, PyErr.keyError, from_dict_no_timestamp hn⟩))

/-- C5 witness: a single record without `timestamp`. -/
theorem load_missing_required_field_witness :
    (∃ r ∈ ([[("upstream_query_count", JVal.jint 1)]] : List JRecord),
      lookupJ "timestamp" r = none) ∧
    ∃ e, load [] [[("upstream_query_count", JVal.jint 1)]] = ([], some e) :=
  ⟨by decide, load_missing_required_field [] _ (by decide)⟩

/-- C6 counterexample: a record carrying every field written by `save` plus
one unknown extra field makes `load` fail with a TypeError (from
`cls(**d)`) instead of tolerating the extra field. -/
theorem load_extra_field_cex :
    load [] [to_dict (MetricsSnapshot.init 0) ++ [("extra_field", JVal.jint 1)]] =
      ([], some PyErr.typeError) := by
  decide

/-- C6 (amended): a persisted record containing a field name outside the
dataclass field set makes `load` fail and leaves the in-memory sequence
unchanged; unknown extra fields are not tolerated. -/
theorem load_extra_field_fails (S : List MetricsSnapshot) (data : List JRecord)
    (h : ∃ r ∈ data, ∃ p ∈ r, fieldNames.contains p.1 = false) :
    ∃ e, load S data = (S, some e) :=
  load_of_error (loadRecords_error (by
    rcases h with ⟨r, hr, hp⟩
    exact ⟨r, hr, from_dict_unknown_key hp⟩))

/-- C6 (amended) witness: the counterexample record, with an arbitrary
starting sequence. -/
theorem load_extra_field_fails_witness :
    (∃ r ∈ [to_dict (MetricsSnapshot.init 0) ++ [("extra_field", JVal.jint 1)]],
      ∃ p ∈ r, fieldNames.contains p.1 = false) ∧
    ∃ e, load [] [to_dict (MetricsSnapshot.init 0) ++ [("extra_field", JVal.jint 1)]] =
      ([], some e) :=
  ⟨by decide, load_extra_field_fails [] _ (by decide)⟩

/-- C7 counterexample: on a count line whose trailing token is `-5` the
extractor stores 0 (the pattern does not match), not the negative value. -/
theorem negative_token_cex :
    (parse_metrics 0
        ("execution_time_us_count database_type=\"upstream\" -5".toList)).upstream_query_count = 0 ∧
    ¬ (parse_metrics 0
        ("execution_time_us_count database_type=\"upstream\" -5".toList)).upstream_query_count = -5 := by
  decide

/-- C7 (amended): the trailing-token patterns accept only unsigned digit
runs, so a line whose trailing numeric token is negative matches neither
pattern; as a single-line input it contributes nothing and every field keeps
its zero default. -/
theorem negative_token_ignored (now : Timestamp) (pre d : List Char)
    (hd : d ≠ []) (hdig : ∀ c ∈ d, isDigitC c = true) (hnl : '\n' ∉ pre) :
    matchIntEnd (pre ++ '-' :: d) = none ∧
    matchFloatEnd (pre ++ '-' :: d) = none ∧
    parse_metrics now (pre ++ '-' :: d) = MetricsSnapshot.init now := by
  refine ⟨matchIntEnd_neg_token pre d hd hdig, matchFloatEnd_neg_token pre d hd hdig, ?_⟩
  have hnl2 : '\n' ∉ pre ++ '-' :: d := by
    intro hm
    rcases List.mem_append.mp hm with hm | hm
    · exact hnl hm
    · rcases List.mem_cons.mp hm with hm | hm
      · exact absurd hm (by decide)
      · exact absurd (hdig _ hm) (by decide)
  simp only [parse_metrics]
  rw [splitOnNl_single hnl2]
  have hfold : ([pre ++ '-' :: d] : List (List Char)).foldl applyLine
      (MetricsSnapshot.init now) = MetricsSnapshot.init now := by
    rw [List.foldl_cons, List.foldl_nil,
      applyLine_of_match_none (matchIntEnd_neg_token pre d hd hdig)
        (matchFloatEnd_neg_token pre d hd hdig)]
  rw [hfold]
  rfl

/-- C7 (amended) witness: the upstream count line ending in ` -5`. -/
theorem negative_token_ignored_witness :
    ((['5'] : List Char) ≠ []) ∧ (∀ c ∈ (['5'] : List Char), isDigitC c = true) ∧
    ('\n' ∉ "execution_time_us_count database_type=\"upstream\" ".toList) ∧
    parse_metrics 0 ("execution_time_us_count database_type=\"upstream\" ".toList ++
      '-' :: ['5']) = MetricsSnapshot.init 0 :=
  ⟨by decide, by decide, by decide,
    (negative_token_ignored 0 ("execution_time_us_count database_type=\"upstream\" ".toList)
      ['5'] (by decide) (by decide) (by decide)).2.2⟩

/-- C8: the speedup statistic is printed only under `avg_readyset_p50 > 0`:
when the average cache p50 is zero the division is never performed, and
whenever it is performed the denominator is nonzero. -/
theorem speedup_guarded (snapshots : List MetricsSnapshot)
    (h : 1 ≤ snapshots.length) :
    (avg_readyset_p50 snapshots = 0 → speedupStat snapshots = none) ∧
    (∀ x, speedupStat snapshots = some x → ¬ avg_readyset_p50 snapshots = 0) := by
  constructor
  · intro hz
    unfold speedupStat
    rw [hz]
    simp
  · intro x hx hz
    unfold speedupStat at hx
    rw [hz] at hx
    simp at hx

/-- C8 witness: one snapshot with zero cache p50 omits the statistic. -/
theorem speedup_guarded_witness :
    1 ≤ ([MetricsSnapshot.init 0] : List MetricsSnapshot).length ∧
    speedupStat [MetricsSnapshot.init 0] = none :=
  ⟨by decide, (speedup_guarded [MetricsSnapshot.init 0] (by decide)).1
    (by simp [avg_readyset_p50, MetricsSnapshot.init])⟩

/-- C9: a successful fetch with an empty body is falsy in `if raw:`, so
`collect_once` returns `none` and appends nothing, exactly as on transport
failure. -/
theorem collect_once_empty_body (now : Timestamp) (snapshots : List MetricsSnapshot) :
    collect_once (some []) now snapshots = (none, snapshots) ∧
    collect_once (some []) now snapshots = collect_once none now snapshots :=
  ⟨rfl, rfl⟩

/-- C10: every numeric field extracted by `parse_metrics` is non-negative
(the patterns accept only unsigned digits) and `cache_hit_rate` lies in
[0, 100]. -/
theorem parse_fields_nonneg_range (now : Timestamp) (raw : List Char) :
    (0 ≤ (parse_metrics now raw).upstream_query_count ∧
     0 ≤ (parse_metrics now raw).readyset_query_count ∧
     0 ≤ (parse_metrics now raw).upstream_p50_us ∧
     0 ≤ (parse_metrics now raw).upstream_p99_us ∧
     0 ≤ (parse_metrics now raw).readyset_p50_us ∧
     0 ≤ (parse_metrics now raw).readyset_p99_us ∧
     0 ≤ (parse_metrics now raw).memory_bytes ∧
     0 ≤ (parse_metrics now raw).client_connections ∧
     0 ≤ (parse_metrics now raw).upstream_connections) ∧
    (0 ≤ (parse_metrics now raw).cache_hit_rate ∧
      (parse_metrics now raw).cache_hit_rate ≤ 100) :=
  ⟨parse_metrics_fields_nonneg now raw, parse_metrics_chr_bounds now raw⟩

end ReadySetTS
